import Mathlib

/-!
Verification development for the viewport-driven geospatial fetch-and-cache
engine of the sensors explorer.

The TypeScript sources are shallowly embedded:
* geographic coordinates and degrees are rationals (ℚ);
* the pure geo-bounds utilities of src/lib/map-utils.ts and the
  normalization / filtering helpers of src/lib/sensors-api.ts become
  computable Lean functions, with the boolean tests of the source becoming
  decidable predicates;
* the stateful fetch orchestrator of src/app/explorer/ExplorerClient.tsx
  becomes explicit state passing: a fetch is split into a start step
  (everything up to capturing the fetch epoch) and a resolve step
  (everything the pending promise chain does when the network answers),
  with the sensor registry modelled as an oracle function;
* JavaScript Map / Set objects become association lists in insertion order.
-/

namespace SensorsExplorer

/-- GeoBounds in degrees, mirroring the Bounds type of src/lib/types. -/
structure Bounds where
  west : ℚ
  south : ℚ
  east : ℚ
  north : ℚ
deriving DecidableEq, Repr

/-- src/lib/map-utils.ts boundsCrossDateline: the viewport spans the
International Date Line when west > east, or the span exceeds 180 degrees.
src/lib/sensors-api.ts filterSensorsByBounds inlines the same test. -/
def boundsCrossDateline (b : Bounds) : Prop :=
  b.west > b.east ∨ b.east - b.west > 180

instance (b : Bounds) : Decidable (boundsCrossDateline b) :=
  inferInstanceAs (Decidable (_ ∨ _))

/-- src/lib/map-utils.ts DATELINE_OVERLAP_DEG = 15. -/
def DATELINE_OVERLAP_DEG : ℚ := 15

/-- src/lib/map-utils.ts isFullWorldBounds, epsilon 1e-6. -/
def isFullWorldBounds (b : Bounds) : Prop :=
  if boundsCrossDateline b then
    |b.west - 180| < 1/1000000 ∧ |b.east + 180| < 1/1000000
  else b.east - b.west ≥ 360 - 1/1000000

instance (b : Bounds) : Decidable (isFullWorldBounds b) :=
  inferInstanceAs (Decidable (ite _ _ _))

/-- src/lib/map-utils.ts fullWorldSegments: the two hemispheres. -/
def fullWorldSegments (b : Bounds) : List Bounds :=
  [⟨-180, b.south, 0, b.north⟩, ⟨0, b.south, 180, b.north⟩]

/-- src/lib/map-utils.ts boundsToFetchSegments. -/
def boundsToFetchSegments (b : Bounds) : List Bounds :=
  if isFullWorldBounds b then fullWorldSegments b
  else if boundsCrossDateline b then
    [⟨b.west, b.south, 180, b.north⟩, ⟨-180, b.south, b.east, b.north⟩]
  else
    let main : List Bounds := [b]
    let main := if b.west ≤ -180 + DATELINE_OVERLAP_DEG then
      main ++ [⟨180 - DATELINE_OVERLAP_DEG, b.south, 180, b.north⟩] else main
    let main := if b.east ≥ 180 - DATELINE_OVERLAP_DEG then
      main ++ [⟨-180, b.south, -180 + DATELINE_OVERLAP_DEG, b.north⟩] else main
    main

/-- src/lib/map-utils.ts expandBounds: grow a box by a margin fraction,
half on each side; widths computed per wrap side for a crossing box. -/
def expandBounds (b : Bounds) (margin : ℚ) : Bounds :=
  let h := b.north - b.south
  let half := margin / 2
  if boundsCrossDateline b then
    let w1 := 180 - b.west
    let w2 := b.east - (-180)
    ⟨b.west - w1 * half, b.south - h * half, b.east + w2 * half, b.north + h * half⟩
  else
    let w := b.east - b.west
    ⟨b.west - w * half, b.south - h * half, b.east + w * half, b.north + h * half⟩

/-- src/lib/map-utils.ts boundsContained: inner fully inside outer, with the
deliberate false-negative when outer crosses the dateline in west < east form. -/
def boundsContained (inner outer : Bounds) : Prop :=
  if inner.south < outer.south ∨ inner.north > outer.north then False
  else if boundsCrossDateline outer ∧ outer.west < outer.east then False
  else if boundsCrossDateline outer then
    if boundsCrossDateline inner then
      inner.west ≥ outer.west ∧ inner.east ≤ outer.east
    else
      (inner.west ≥ outer.west ∧ inner.east ≤ 180) ∨
      (inner.west ≥ -180 ∧ inner.east ≤ outer.east)
  else if boundsCrossDateline inner then
    outer.west ≤ inner.west ∧ outer.east ≥ inner.east
  else inner.west ≥ outer.west ∧ inner.east ≤ outer.east

instance (inner outer : Bounds) : Decidable (boundsContained inner outer) :=
  inferInstanceAs (Decidable (ite _ _ _))

/-- src/lib/map-utils.ts distSq: squared distance in lat/lon degree space. -/
def distSq (lat1 lon1 lat2 lon2 : ℚ) : ℚ :=
  (lat1 - lat2) * (lat1 - lat2) + (lon1 - lon2) * (lon1 - lon2)

/-- src/lib/map-utils.ts centerFromBounds; midpoint along the wrap direction
for a crossing box.  Returned as (lat, lon). -/
def centerFromBounds (b : Bounds) : ℚ × ℚ :=
  let lon :=
    if boundsCrossDateline b then
      let l := (b.west + b.east + 360) / 2
      if l > 180 then l - 360 else l
    else (b.west + b.east) / 2
  ((b.south + b.north) / 2, lon)

/-- SensorRecord as the engine sees it after normalization: identifier plus
nullable WGS84 coordinates (src/lib/types Sensor, fields used by the engine). -/
structure Sensor where
  id : String
  latitude : Option ℚ
  longitude : Option ℚ
deriving DecidableEq, Repr

/-- s.latitude != null && s.longitude != null. -/
def hasCoords (s : Sensor) : Prop :=
  s.latitude.isSome ∧ s.longitude.isSome

instance (s : Sensor) : Decidable (hasCoords s) :=
  inferInstanceAs (Decidable (_ ∧ _))

/-- Comparator of src/lib/map-utils.ts sortSensorsByCenter: ascending squared
distance from the center; the center is (lat, lon). -/
def nearerCenter (c : ℚ × ℚ) (a b : Sensor) : Prop :=
  distSq (a.latitude.getD 0) (a.longitude.getD 0) c.1 c.2
    ≤ distSq (b.latitude.getD 0) (b.longitude.getD 0) c.1 c.2

instance (c : ℚ × ℚ) : DecidableRel (nearerCenter c) :=
  fun _ _ => inferInstanceAs (Decidable (_ ≤ _))

/-- src/lib/map-utils.ts sortSensorsByCenter: sensors with coordinates ordered
by distance from the center, sensors without coordinates appended at the end.
JavaScript Array.prototype.sort is a stable sort; it is modelled by the stable
insertionSort (inserting an earlier element before equal later ones). -/
def sortSensorsByCenter (sensors : List Sensor) (c : ℚ × ℚ) : List Sensor :=
  List.insertionSort (nearerCenter c)
      (sensors.filter fun s => decide (hasCoords s)) ++
    sensors.filter fun s => s.latitude.isNone || s.longitude.isNone

/-- The membership test of src/lib/sensors-api.ts filterSensorsByBounds on a
coordinate pair: latitude in [south, north] and the dateline-aware longitude
test; a missing coordinate fails the test. -/
def coordPairInBounds (b : Bounds) : Option ℚ → Option ℚ → Prop
  | some la, some lo =>
    if la < b.south ∨ la > b.north then False
    else if boundsCrossDateline b then
      (lo ≥ b.west ∧ lo ≤ 180) ∨ (lo ≥ -180 ∧ lo ≤ b.east)
    else lo ≥ b.west ∧ lo ≤ b.east
  | _, _ => False

instance (b : Bounds) : ∀ (ola olo : Option ℚ), Decidable (coordPairInBounds b ola olo)
  | some _, some _ => inferInstanceAs (Decidable (ite _ _ _))
  | some _, none => isFalse id
  | none, some _ => isFalse id
  | none, none => isFalse id

/-- The per-sensor membership test of filterSensorsByBounds. -/
def sensorInBounds (b : Bounds) (s : Sensor) : Prop :=
  coordPairInBounds b s.latitude s.longitude

instance (b : Bounds) (s : Sensor) : Decidable (sensorInBounds b s) :=
  inferInstanceAs (Decidable (coordPairInBounds b s.latitude s.longitude))

/-- src/lib/sensors-api.ts filterSensorsByBounds. -/
def filterSensorsByBounds (sensors : List Sensor) (b : Bounds) : List Sensor :=
  sensors.filter fun s => decide (sensorInBounds b s)

/-! ## Registry client (src/lib/sensors-api.ts): coordinate coercion -/

/-- A JSON value in a coordinate position of a registry response.  Arrays are
not modelled; vobj stands for plain objects, on which the JavaScript Number
coercion yields NaN. -/
inductive JsonValue
  | vnull
  | vnum (q : ℚ)
  | vstr (s : String)
  | vbool (b : Bool)
  | vobj
deriving DecidableEq, Repr

/-- Digits of a decimal literal read left to right. -/
def digitsToNat (ds : List Char) : ℕ :=
  ds.foldl (fun n c => 10 * n + (c.toNat - 48)) 0

/-- Exponent part after the e/E of a JavaScript float literal: optional sign
then digits; an exponent without digits is ignored (parseFloat keeps the
mantissa already read). -/
def parseExpPart (r : List Char) : ℤ :=
  let se : ℤ × List Char :=
    match r with
    | '-' :: rr => (-1, rr)
    | '+' :: rr => (1, rr)
    | _ => (1, r)
  let ed := se.2.takeWhile Char.isDigit
  if ed.isEmpty then 0 else se.1 * (digitsToNat ed : ℤ)

/-- The lexical pieces of a JavaScript float literal: sign, integer digits,
fraction digits, exponent. -/
structure FloatParts where
  neg : Bool
  ip : List Char
  fp : List Char
  e : ℤ
deriving DecidableEq, Repr

/-- The lexical phase of JavaScript parseFloat: skip leading whitespace, read
an optional sign, integer digits, an optional fraction and an optional
exponent; the longest valid numeric prefix counts; none models NaN (no digit
at all). -/
def splitFloat (s : String) : Option FloatParts :=
  let l := s.data.dropWhile (fun c => c = ' ' ∨ c = '\t' ∨ c = '\n' ∨ c = '\r')
  let sr : Bool × List Char :=
    match l with
    | '-' :: r => (true, r)
    | '+' :: r => (false, r)
    | _ => (false, l)
  let ip := sr.2.takeWhile Char.isDigit
  let l2 := sr.2.dropWhile Char.isDigit
  let fr : List Char × List Char :=
    match l2 with
    | '.' :: r => (r.takeWhile Char.isDigit, r.dropWhile Char.isDigit)
    | _ => ([], l2)
  if ip.isEmpty ∧ fr.1.isEmpty then none
  else
    let e : ℤ :=
      match fr.2 with
      | 'e' :: r => parseExpPart r
      | 'E' :: r => parseExpPart r
      | _ => 0
    some ⟨sr.1, ip, fr.1, e⟩

/-- Numeric value of the lexical pieces. -/
def partsToQ (p : FloatParts) : ℚ :=
  (if p.neg then -1 else 1) *
    ((digitsToNat p.ip : ℚ) + (digitsToNat p.fp : ℚ) / (10 : ℚ) ^ p.fp.length) *
    (10 : ℚ) ^ p.e

/-- Model of JavaScript parseFloat on finite decimal input. -/
def parseFloatQ (s : String) : Option ℚ :=
  (splitFloat s).map partsToQ

/-- src/lib/sensors-api.ts toNum: coerce an API lat/long value to
number-or-null.  null/undefined map to none; a number passes through (NaN,
which the source maps to null, has no ℚ representative); a string goes
through parseFloat; anything else goes through the JavaScript Number
coercion, which yields 1/0 on booleans and NaN (hence null) on plain
objects. -/
def toNum : JsonValue → Option ℚ
  | .vnull => none
  | .vnum q => some q
  | .vstr s => parseFloatQ s
  | .vbool b => some (if b then 1 else 0)
  | .vobj => none

/-- A raw sensor record as served by the registry, before normalization:
the possible coordinate carriers of src/lib/sensors-api.ts normalizeSensor. -/
structure RawSensor where
  id : String
  latitude : JsonValue
  lat : JsonValue
  longitude : JsonValue
  lon : JsonValue
  lng : JsonValue
  geometryCoordinates : Option (List JsonValue)
deriving DecidableEq, Repr

/-- geometry?.coordinates?.[i] — undefined when the chain is missing. -/
def geomCoord (g : Option (List JsonValue)) (i : ℕ) : JsonValue :=
  match g with
  | none => .vnull
  | some l => l.getD i .vnull

/-- src/lib/sensors-api.ts normalizeSensor: latitude from
latitude ?? lat ?? geometry.coordinates[1], longitude from
longitude ?? lon ?? lng ?? geometry.coordinates[0], each coerced by toNum
(?? falls through on null, i.e. on none). -/
def normalizeSensor (r : RawSensor) : Sensor :=
  { id := r.id
    latitude := (toNum r.latitude).orElse fun _ =>
      (toNum r.lat).orElse fun _ => toNum (geomCoord r.geometryCoordinates 1)
    longitude := (toNum r.longitude).orElse fun _ =>
      (toNum r.lon).orElse fun _ =>
        (toNum r.lng).orElse fun _ => toNum (geomCoord r.geometryCoordinates 0) }

/-! ## Registry client: getLatestReading and the negative-result cache -/

/-- Payload of GET :id/readings/latest (fields irrelevant to the control
flow are omitted). -/
structure LatestReading where
  sensor_id : String
  timestamp : String
deriving DecidableEq, Repr

/-- What the network answers for a latest-reading request. -/
inductive ReadingResponse
  | notFound
  | okNull
  | okReading (r : LatestReading)
  | httpError (status : ℕ)
deriving DecidableEq, Repr

/-- src/lib/sensors-api.ts MAX_NO_READING_CACHE = 500. -/
def MAX_NO_READING_CACHE : ℕ := 500

/-- The insertion into noReadingCache: cleared wholesale when the cap is
reached, then the id is added (JavaScript Set keeps ids unique, in insertion
order). -/
def noReadingCacheAdd (cache : List String) (id : String) : List String :=
  let c := if MAX_NO_READING_CACHE ≤ cache.length then [] else cache
  if id ∈ c then c else c ++ [id]

/-- Result of one getLatestReading call: the returned value (or thrown
error), the negative-result cache afterwards, and whether a network request
was issued. -/
structure ReadingResult where
  result : Except String (Option LatestReading)
  cache : List String
  networkCalled : Bool
deriving Repr

/-- src/lib/sensors-api.ts getLatestReading as a state transformer over the
noReadingCache: a cached id answers null without network; a 404 or a null
body caches the id and answers null; any other failure status throws. -/
def getLatestReading (cache : List String) (sensorId : String)
    (resp : ReadingResponse) : ReadingResult :=
  if sensorId ∈ cache then ⟨.ok none, cache, false⟩
  else match resp with
  | .notFound => ⟨.ok none, noReadingCacheAdd cache sensorId, true⟩
  | .okNull => ⟨.ok none, noReadingCacheAdd cache sensorId, true⟩
  | .okReading r => ⟨.ok (some r), cache, true⟩
  | .httpError status => ⟨.error ("Sensors API error: " ++ toString status), cache, true⟩

/-! ## JavaScript Map / Set models

A JavaScript Map is an association list in insertion order: set on an
existing key replaces the value in place, set on a fresh key appends;
deleting the first iterated key drops the head. -/

/-- Map.prototype.set. -/
def jsMapSet {α : Type} (m : List (String × α)) (k : String) (v : α) :
    List (String × α) :=
  if m.any (fun p => p.1 = k) then
    m.map (fun p => if p.1 = k then (k, v) else p)
  else m ++ [(k, v)]

/-- Map.prototype.get. -/
def jsMapLookup {α : Type} (m : List (String × α)) (k : String) : Option α :=
  (m.find? (fun p => p.1 = k)).map (fun p => p.2)

/-- src/app/explorer/ExplorerClient.tsx BBOX_CACHE_MAX_ENTRIES = 20. -/
def BBOX_CACHE_MAX_ENTRIES : ℕ := 20

/-- The cache insertion of ExplorerClient: set the key, then evict the first
(oldest) key when the size exceeds the cap. -/
def insertEvictOldest {α : Type} (m : List (String × α)) (k : String) (v : α) :
    List (String × α) :=
  let m2 := jsMapSet m k v
  if BBOX_CACHE_MAX_ENTRIES < m2.length then m2.drop 1 else m2

/-! ## Merging fetched pages (ExplorerClient.tsx)

The bbox phase merges task chunks through a seenIds set (first occurrence
of an id wins); the radius phase rebuilds a byId Map from the accumulator
and adds only unseen ids, again first occurrence wins. -/

/-- One step of the seenIds merge: push s unless its id was already seen.
The seenIds set always equals the set of ids of the accumulator. -/
def appendIfNew (acc : List Sensor) (s : Sensor) : List Sensor :=
  if s.id ∈ acc.map Sensor.id then acc else acc ++ [s]

/-- The bbox-results merge of fetchAllPages (lines 1270-1277): chunks in task
order, first occurrence of an id wins. -/
def mergeChunks (chunks : List (List Sensor)) : List Sensor :=
  chunks.foldl (fun acc chunk => chunk.foldl appendIfNew acc) []

/-- new Map(accumulated.map(s =\x7b [s.id, s])). -/
def buildById (acc : List Sensor) : List (String × Sensor) :=
  acc.foldl (fun m s => jsMapSet m s.id s) []

/-- The radius-page merge (lines 1305-1310): rebuild byId from the
accumulator, add radius sensors with unseen ids, and replace the accumulator
by the map values. -/
def radiusPageMerge (acc page : List Sensor) : List Sensor :=
  (page.foldl
      (fun m s => if m.any (fun p => p.1 = s.id) then m else jsMapSet m s.id s)
      (buildById acc)).map
    (fun p => p.2)

/-- One per-type radius pass of the viewport fetch: either its pages (each
merged in turn into the accumulator) or a thrown error caught by the inner
try/catch. -/
inductive RadiusPass
  | ok (pages : List (List Sensor))
  | failed
deriving DecidableEq, Repr

def applyRadiusPass (acc : List Sensor) : RadiusPass → List Sensor
  | .ok pages => pages.foldl radiusPageMerge acc
  | .failed => acc

/-- Accumulated list after the bbox merge and all radius passes. -/
def mergedResult (chunks : List (List Sensor)) (rp : List RadiusPass) :
    List Sensor :=
  rp.foldl applyRadiusPass (mergeChunks chunks)

/-- radiusFailed: some per-type radius pass threw. -/
def anyRadiusFailed (rp : List RadiusPass) : Bool :=
  rp.any (fun p => match p with | .failed => true | .ok _ => false)

/-- Sensor arrival order across the whole viewport fetch: bbox chunks in task
order, then the pages of the successful radius passes. -/
def fetchArrivals (chunks : List (List Sensor)) (rp : List RadiusPass) :
    List Sensor :=
  chunks.flatten ++
    (rp.map (fun p => match p with | .ok pages => pages.flatten | .failed => [])).flatten

/-! ## Registry oracle and the location-mode fetch pipeline -/

/-- Geographic filter of a GET list request: nothing, a bounding box
(min_lat, min_lon, max_lat, max_lon), or center+radius.  getSensors gives
the bounding box precedence, so a request carries at most one of them. -/
inductive GeoFilter
  | noGeo
  | bbox (min_lat min_lon max_lat max_lon : ℚ)
  | centerRadius (lat lon radius_km : ℚ)
deriving DecidableEq, Repr

/-- One list request as fetchApiSensors sends it. -/
structure Query where
  sensor_type : Option String
  provider : Option String
  page : ℕ
  limit : ℕ
  geo : GeoFilter
deriving DecidableEq, Repr

/-- src/lib/sensors-api.ts: radius_km is clamped to [0, 1000] before being
sent. -/
def normalizeGeo : GeoFilter → GeoFilter
  | .centerRadius la lo r => .centerRadius la lo (min 1000 (max 0 r))
  | g => g

/-- Body of a list response: normalized sensors plus pagination.total_pages. -/
structure ListResponse where
  sensors : List Sensor
  total_pages : ℕ

/-- The external registry, as seen through getSensors: an oracle from request
to response. -/
def Registry : Type := Query → ListResponse

/-- ExplorerClient RADIUS_MAX_PAGES = 5. -/
def RADIUS_MAX_PAGES : ℕ := 5

/-- Location-mode radius tiers (ExplorerClient lines 691-693). -/
def LOCATION_RADIUS_INITIAL_KM : ℚ := 8

def LOCATION_RADIUS_TIER2_KM : ℚ := 25

def LOCATION_RADIUS_TIER3_KM : ℚ := 80

/-- The page loop of fetchWithOpts: pages from 1 while page ≤ RADIUS_MAX_PAGES
(the fuel counts the remaining allowed iterations), merging each page through
the shared seen set, and continuing only while the page came back full
(length = 500) and page < pagination.total_pages. -/
def pagedLoop (reg : Registry) (mk : ℕ → Query) :
    ℕ → ℕ → List Sensor → List Sensor
  | 0, _, acc => acc
  | fuel + 1, page, acc =>
    let res := reg (mk page)
    let acc2 := res.sensors.foldl appendIfNew acc
    if res.sensors.length = 500 ∧ page < res.total_pages then
      pagedLoop reg mk fuel (page + 1) acc2
    else acc2

/-- ExplorerClient fetchWithOpts (lines 920-955): for each requested type,
paginate the query built from the given geographic options, deduplicating
into one shared accumulator. -/
def fetchWithOpts (reg : Registry) (types : List (Option String))
    (provider : Option String) (geo : GeoFilter) : List Sensor :=
  types.foldl
    (fun acc t =>
      pagedLoop reg (fun p => ⟨t, provider, p, 500, normalizeGeo geo⟩)
        RADIUS_MAX_PAGES 1 acc)
    []

/-- The location-mode fetch pipeline of ExplorerClient (lines 957-1144), from
tier 1a through the post-filter, returning the published (sorted, window
filtered) list and the locationFetchUsedFallback flag.  The epoch and
cancellation guards only drop a stale commit and do not change the value
computed here. -/
def locationFetch (reg : Registry) (types : List (Option String))
    (provider : Option String) (locationBbox : Option (ℚ × ℚ × ℚ × ℚ))
    (locationLat locationLon : ℚ) : List Sensor × Bool :=
  -- Tier 1a: the geocoder bounding box when present
  let acc :=
    match locationBbox with
    | some (mla, mlo, xla, xlo) => fetchWithOpts reg types provider (.bbox mla mlo xla xlo)
    | none => []
  -- Tier 1b: city-scale radius
  let acc :=
    if acc.length = 0 then
      fetchWithOpts reg types provider
        (.centerRadius locationLat locationLon LOCATION_RADIUS_INITIAL_KM)
    else acc
  -- Tier 2: metro radius; entering this tier sets usedFallback
  let st2 :=
    if acc.length = 0 then
      (fetchWithOpts reg types provider
          (.centerRadius locationLat locationLon LOCATION_RADIUS_TIER2_KM),
        true)
    else (acc, false)
  -- Tier 3: regional radius
  let acc3 :=
    if st2.1.length = 0 then
      fetchWithOpts reg types provider
        (.centerRadius locationLat locationLon LOCATION_RADIUS_TIER3_KM)
    else st2.1
  -- Type fallback: drop the category filter at regional radius
  let st4 :=
    if acc3.length = 0 ∧ types.any (fun t => t.isSome) then
      let fallbackAcc :=
        fetchWithOpts reg [none] provider
          (.centerRadius locationLat locationLon LOCATION_RADIUS_TIER3_KM)
      if 0 < fallbackAcc.length then (fallbackAcc, true) else (acc3, st2.2)
    else (acc3, st2.2)
  -- Bbox fallback: ±0.5 degrees around the searched point
  let st5 :=
    if st4.1.length = 0 then
      let fa :=
        fetchWithOpts reg types provider
          (.bbox (locationLat - 1/2) (locationLon - 1/2)
            (locationLat + 1/2) (locationLon + 1/2))
      if 0 < fa.length then
        (sortSensorsByCenter fa (locationLat, locationLon), true)
      else (st4.1, st4.2)
    else (st4.1, st4.2)
  -- Last resort: ±1 degree region box
  let st6 :=
    if st5.1.length = 0 then
      let regionAcc :=
        fetchWithOpts reg types provider
          (.bbox (locationLat - 1) (locationLon - 1)
            (locationLat + 1) (locationLon + 1))
      if 0 < regionAcc.length then
        (sortSensorsByCenter regionAcc (locationLat, locationLon), true)
      else (st5.1, st5.2)
    else (st5.1, st5.2)
  -- Post-filter to the ±1 degree window around the point, then sort
  let locationBounds : Bounds :=
    ⟨locationLon - 1, locationLat - 1, locationLon + 1, locationLat + 1⟩
  let inArea := filterSensorsByBounds st6.1 locationBounds
  (sortSensorsByCenter inArea (locationLat, locationLon), st6.2)

/-! ## Viewport-mode orchestrator state machine

The React component state and refs that the viewport fetch effect reads and
writes, made explicit.  A fetch run is split into startViewportFetch — the
synchronous prefix of the effect up to capturing myFetchId — and
resolveViewportFetch — the commits the pending promise chain performs once
the network has answered.  In the source every single mutation of shared
state inside the promise chain is guarded by the same check
myFetchId === fetchIdRef.current (lines 1269, 1304, 1321, 1326, 1342, 1348);
since fetchIdRef only ever increases, a stale run fails every one of those
checks, so the resolve step is modelled as one epoch-guarded commit. -/

/-- ExplorerClient VIEWPORT_CUSHION = 0.15. -/
def VIEWPORT_CUSHION : ℚ := 3/20

/-- The fields of ExplorerClient state/refs driven by the viewport fetch. -/
structure OrchState where
  fetchId : ℕ
  allSensors : List Sensor
  progressiveVisibleCount : ℕ
  loadingSensors : Bool
  sensorsError : Option String
  radiusError : Option String
  bboxCache : List (String × List Sensor)
  lastFetchedBbox : Option Bounds
  lastSelectedTypesKey : String
deriving DecidableEq, Repr

/-- How a viewport fetch effect run ended its synchronous prefix. -/
inductive StartAction
  | skippedContained
  | servedFromCache (cached : List Sensor)
  | started (myFetchId : ℕ)
deriving DecidableEq, Repr

/-- ExplorerClient lines 1172-1221: reset the containment reference on a
filter change; skip entirely when the bounds are contained in the last
fetched expanded bounds; serve a cache hit; otherwise record the expanded
bounds in lastFetchedBboxRef (before any network call) and claim the next
fetch epoch. -/
def startViewportFetch (st0 : OrchState) (typesKey : String)
    (bboxOpt : Option Bounds) (cacheKey : Option String) :
    OrchState × StartAction :=
  let st := if typesKey ≠ st0.lastSelectedTypesKey then
      { st0 with lastFetchedBbox := none, lastSelectedTypesKey := typesKey }
    else st0
  let contained :=
    match bboxOpt, st.lastFetchedBbox with
    | some bb, some last => decide (boundsContained bb last)
    | _, _ => false
  if contained then ({ st with loadingSensors := false }, .skippedContained)
  else
    match cacheKey.bind (jsMapLookup st.bboxCache) with
    | some cached =>
      ({ st with
          allSensors := cached
          progressiveVisibleCount := cached.length
          loadingSensors := false
          sensorsError := none
          radiusError := none },
        .servedFromCache cached)
    | none =>
      let expanded := bboxOpt.map (fun bb => expandBounds bb VIEWPORT_CUSHION)
      ({ st with
          loadingSensors := true
          sensorsError := none
          radiusError := none
          lastFetchedBbox := expanded.orElse (fun _ => st.lastFetchedBbox)
          fetchId := st0.fetchId + 1 },
        .started (st0.fetchId + 1))

/-- What the network produced for one viewport fetch run: either the
concurrency pool rejected (outer catch), or it delivered the bbox task
chunks together with the outcome of each per-type radius pass. -/
inductive FetchOutcome
  | bboxFailed (msg : String)
  | completed (bboxChunks : List (List Sensor)) (radiusPasses : List RadiusPass)
deriving DecidableEq, Repr

/-- The list published by a completed viewport fetch: bbox merge, radius
merges, then distance sort around centerFromBounds (bbox ?? expandedBbox). -/
def publishList (chunks : List (List Sensor)) (rp : List RadiusPass)
    (bboxOpt expandedOpt : Option Bounds) : List Sensor :=
  let merged := mergedResult chunks rp
  match bboxOpt.orElse (fun _ => expandedOpt) with
  | some cb => sortSensorsByCenter merged (centerFromBounds cb)
  | none => merged

/-- ExplorerClient fetchAllPages, commit side (lines 1223-1350): every state
mutation is epoch-guarded, so a run whose myFetchId is no longer current
leaves the state untouched; a current run publishes the merged sorted list,
sets the soft radius warning when a radius pass failed, stores the result
under the cache key (evicting the oldest entry past the cap), and clears the
loading flag; a rejected bbox pool sets the hard error instead.  The radius
phase only runs when a viewport bbox exists. -/
def resolveViewportFetch (st : OrchState) (myFetchId : ℕ)
    (bboxOpt expandedOpt : Option Bounds) (cacheKey : Option String)
    (o : FetchOutcome) : OrchState :=
  if myFetchId ≠ st.fetchId then st
  else match o with
  | .bboxFailed msg => { st with sensorsError := some msg, loadingSensors := false }
  | .completed chunks rp =>
    let rpEff := if bboxOpt.isSome then rp else []
    let sorted := publishList chunks rpEff bboxOpt expandedOpt
    let st1 := { st with
      radiusError := if anyRadiusFailed rpEff then
          some "Offshore sensors may be incomplete." else st.radiusError
      allSensors := sorted
      progressiveVisibleCount := if bboxOpt.isNone then sorted.length else 0
      loadingSensors := false }
    match cacheKey with
    | some k => { st1 with bboxCache := insertEvictOldest st1.bboxCache k sorted }
    | none => st1

/-! ## A concrete registry for the tiered location-search scenario

An oracle with no sensors within any 8 km or 25 km query and three sensors
within 80 km of any point, matching scenario 3 of the spec (0 sensors at
8 km, 0 at 25 km, 3 at 80 km). -/

/-- The three records the regional (80 km) tier returns, all within one
degree of the search point (37, -122) used in the scenario. -/
def tier3Sensors : List Sensor :=
  [⟨"s1", some (371/10), some (-122)⟩,
    ⟨"s2", some (372/10), some (-122)⟩,
    ⟨"s3", some (373/10), some (-122)⟩]

/-- Registry oracle of the scenario: radius-80 queries answer the three
records on a single page; every other query answers nothing. -/
def tierOracle : Registry := fun q =>
  match q.geo with
  | .centerRadius _ _ r => if r = 80 then ⟨tier3Sensors, 1⟩ else ⟨[], 0⟩
  | _ => ⟨[], 0⟩

/-! ## Helper lemmas on the orchestrator state machine -/

/-- A resolve step whose captured epoch is no longer the current one changes
nothing at all. -/
theorem resolveViewportFetch_stale (st : OrchState) (myFetchId : ℕ)
    (bo eo : Option Bounds) (ck : Option String) (o : FetchOutcome)
    (h : myFetchId ≠ st.fetchId) :
    resolveViewportFetch st myFetchId bo eo ck o = st := by
  simp [resolveViewportFetch, h]

/-- When the synchronous prefix of a fetch run reports started, the new state
carries the incremented epoch, the requested types key, and (for a viewport
run) the expanded bounds as the containment reference. -/
theorem startViewportFetch_started_spec (st0 : OrchState) (tk : String)
    (bb : Bounds) (ck : Option String) (n : ℕ)
    (h : (startViewportFetch st0 tk (some bb) ck).2 = .started n) :
    n = st0.fetchId + 1 ∧
    (startViewportFetch st0 tk (some bb) ck).1.fetchId = st0.fetchId + 1 ∧
    (startViewportFetch st0 tk (some bb) ck).1.lastSelectedTypesKey = tk ∧
    (startViewportFetch st0 tk (some bb) ck).1.lastFetchedBbox
      = some (expandBounds bb VIEWPORT_CUSHION) := by
  by_cases htk : tk ≠ st0.lastSelectedTypesKey
  · simp only [startViewportFetch, if_pos htk] at h ⊢
    rcases hcb : ck.bind (jsMapLookup st0.bboxCache) with _ | cached <;>
      simp [hcb] at h ⊢ <;> simp [h]
  · simp only [startViewportFetch, if_neg htk] at h ⊢
    push_neg at htk
    rcases hlb : st0.lastFetchedBbox with _ | last
    · rcases hcb : ck.bind (jsMapLookup st0.bboxCache) with _ | cached <;>
        simp [hlb, hcb] at h ⊢ <;> simp [h, htk]
    · by_cases hc : boundsContained bb last
      · simp [hlb, hc] at h
      · rcases hcb : ck.bind (jsMapLookup st0.bboxCache) with _ | cached <;>
          simp [hlb, hc, hcb] at h ⊢ <;> simp [h, htk]

/-- The resolve step never touches the containment reference or the selected
types key. -/
theorem resolveViewportFetch_preserves (st : OrchState) (myFetchId : ℕ)
    (bo eo : Option Bounds) (ck : Option String) (o : FetchOutcome) :
    (resolveViewportFetch st myFetchId bo eo ck o).lastFetchedBbox
        = st.lastFetchedBbox ∧
    (resolveViewportFetch st myFetchId bo eo ck o).lastSelectedTypesKey
        = st.lastSelectedTypesKey := by
  unfold resolveViewportFetch
  split
  · exact ⟨rfl, rfl⟩
  · cases o with
    | bboxFailed msg => exact ⟨rfl, rfl⟩
    | completed chunks rp => cases ck <;> exact ⟨rfl, rfl⟩

/-! ## Claim theorems -/

/-- C1.  Epoch correctness: when a fetch run with captured epoch myFetchId is
still pending (myFetchId ≤ current epoch) and a new fetch starts — bumping
the epoch to current + 1 — then resolving the older run on the new state is a
no-op: it publishes no sensor list, writes nothing to the cache, and sets no
error or loading state; only a resolve carrying the latest epoch can commit. -/
theorem epoch_stale_resolution_ignored (st0 : OrchState) (tk : String)
    (bb : Bounds) (ck : Option String) (myFetchId : ℕ)
    (bo eo : Option Bounds) (ck2 : Option String) (o : FetchOutcome)
    (hpending : myFetchId ≤ st0.fetchId)
    (hstart : (startViewportFetch st0 tk (some bb) ck).2
        = .started (st0.fetchId + 1)) :
    (startViewportFetch st0 tk (some bb) ck).1.fetchId = st0.fetchId + 1 ∧
    resolveViewportFetch (startViewportFetch st0 tk (some bb) ck).1
        myFetchId bo eo ck2 o
      = (startViewportFetch st0 tk (some bb) ck).1 := by
  obtain ⟨-, h2, -, -⟩ := startViewportFetch_started_spec st0 tk bb ck _ hstart
  refine ⟨h2, resolveViewportFetch_stale _ _ _ _ _ _ ?_⟩
  rw [h2]; omega

/-- Witness for C1: fetch A (epoch 0) pends, fetch B starts (epoch 1);
resolving A with a completed outcome changes nothing. -/
theorem epoch_stale_resolution_ignored_witness :
    (startViewportFetch ⟨0, [], 0, false, none, none, [], none, ""⟩ ""
        (some ⟨0, 0, 10, 10⟩) none).1.fetchId = 0 + 1 ∧
    resolveViewportFetch
        (startViewportFetch ⟨0, [], 0, false, none, none, [], none, ""⟩ ""
          (some ⟨0, 0, 10, 10⟩) none).1 0 none none none (.completed [] [])
      = (startViewportFetch ⟨0, [], 0, false, none, none, [], none, ""⟩ ""
          (some ⟨0, 0, 10, 10⟩) none).1 :=
  epoch_stale_resolution_ignored _ _ _ _ _ _ _ _ _ (Nat.le_refl 0)
    (by simp [startViewportFetch])

/-- When the current filter key matches and the viewport is contained in the
recorded reference bounds, a fetch run short-circuits without fetching. -/
theorem startViewportFetch_skips_contained (st : OrchState) (tk : String)
    (bb2 : Bounds) (ck3 : Option String) (last : Bounds)
    (hkey : st.lastSelectedTypesKey = tk)
    (hlb : st.lastFetchedBbox = some last)
    (hcont : boundsContained bb2 last) :
    startViewportFetch st tk (some bb2) ck3
      = ({ st with loadingSensors := false }, .skippedContained) := by
  have h1 : ¬ (tk ≠ st.lastSelectedTypesKey) := by
    rw [hkey]
    exact not_not_intro rfl
  simp only [startViewportFetch, if_neg h1, hlb]
  simp [hcont]

/-- C10.  The containment reference lastFetchedBboxRef is assigned the
expanded bounds at fetch initiation, before any network call; the resolve
step — whatever its outcome, including a failure or a stale epoch — never
rolls it back; and a subsequent viewport contained in those expanded bounds
(with the same filter key) short-circuits into skippedContained, issuing no
fetch, even when the recording fetch published nothing. -/
theorem containment_reference_survives_failure (st0 : OrchState) (tk : String)
    (bb bb2 : Bounds) (ck : Option String) (n myFetchId : ℕ)
    (bo eo : Option Bounds) (ck2 ck3 : Option String) (o : FetchOutcome)
    (hstart : (startViewportFetch st0 tk (some bb) ck).2 = .started n)
    (hcont : boundsContained bb2 (expandBounds bb VIEWPORT_CUSHION)) :
    (startViewportFetch st0 tk (some bb) ck).1.lastFetchedBbox
        = some (expandBounds bb VIEWPORT_CUSHION) ∧
    (resolveViewportFetch (startViewportFetch st0 tk (some bb) ck).1
          myFetchId bo eo ck2 o).lastFetchedBbox
        = some (expandBounds bb VIEWPORT_CUSHION) ∧
    startViewportFetch
        (resolveViewportFetch (startViewportFetch st0 tk (some bb) ck).1
          myFetchId bo eo ck2 o) tk (some bb2) ck3
      = ({ resolveViewportFetch (startViewportFetch st0 tk (some bb) ck).1
            myFetchId bo eo ck2 o with loadingSensors := false },
          .skippedContained) := by
  obtain ⟨-, -, hkey, hlb⟩ := startViewportFetch_started_spec st0 tk bb ck _ hstart
  obtain ⟨hlb2, hkey2⟩ := resolveViewportFetch_preserves
    (startViewportFetch st0 tk (some bb) ck).1 myFetchId bo eo ck2 o
  refine ⟨hlb, hlb2.trans hlb, ?_⟩
  exact startViewportFetch_skips_contained _ _ _ _ _ (hkey2.trans hkey)
    (hlb2.trans hlb) hcont

/-- Witness for C10: the recording fetch fails hard, yet the next viewport
contained in the recorded expanded bounds skips fetching. -/
theorem containment_reference_survives_failure_witness :
    (startViewportFetch ⟨0, [], 0, false, none, none, [], none, ""⟩ ""
        (some ⟨0, 0, 10, 10⟩) none).1.lastFetchedBbox
        = some (expandBounds ⟨0, 0, 10, 10⟩ VIEWPORT_CUSHION) ∧
    (resolveViewportFetch
          (startViewportFetch ⟨0, [], 0, false, none, none, [], none, ""⟩ ""
            (some ⟨0, 0, 10, 10⟩) none).1 1 none none none
          (.bboxFailed "Failed to load sensors")).lastFetchedBbox
        = some (expandBounds ⟨0, 0, 10, 10⟩ VIEWPORT_CUSHION) ∧
    startViewportFetch
        (resolveViewportFetch
          (startViewportFetch ⟨0, [], 0, false, none, none, [], none, ""⟩ ""
            (some ⟨0, 0, 10, 10⟩) none).1 1 none none none
          (.bboxFailed "Failed to load sensors")) "" (some ⟨1, 1, 2, 2⟩) none
      = ({ resolveViewportFetch
            (startViewportFetch ⟨0, [], 0, false, none, none, [], none, ""⟩ ""
              (some ⟨0, 0, 10, 10⟩) none).1 1 none none none
            (.bboxFailed "Failed to load sensors") with loadingSensors := false },
          .skippedContained) :=
  containment_reference_survives_failure ⟨0, [], 0, false, none, none, [], none, ""⟩
    "" ⟨0, 0, 10, 10⟩ ⟨1, 1, 2, 2⟩ none 1 1 none none none none
    (.bboxFailed "Failed to load sensors")
    (by simp [startViewportFetch])
    (by norm_num [boundsContained, expandBounds, boundsCrossDateline, VIEWPORT_CUSHION])

/-- The id just inserted is in the negative-reading cache. -/
theorem mem_noReadingCacheAdd (cache : List String) (id : String) :
    id ∈ noReadingCacheAdd cache id := by
  by_cases h : id ∈ (if MAX_NO_READING_CACHE ≤ cache.length then [] else cache)
  · simp only [noReadingCacheAdd]
    rw [if_pos h]
    exact h
  · simp only [noReadingCacheAdd]
    rw [if_neg h]
    exact List.mem_append_right _ (List.mem_singleton.mpr rfl)

/-- The wholesale clear keeps the negative-reading cache at its cap. -/
theorem length_noReadingCacheAdd (cache : List String) (id : String)
    (hlen : cache.length ≤ MAX_NO_READING_CACHE) :
    (noReadingCacheAdd cache id).length ≤ MAX_NO_READING_CACHE := by
  simp only [noReadingCacheAdd]
  by_cases h5 : MAX_NO_READING_CACHE ≤ cache.length
  · rw [if_pos h5, if_neg (List.not_mem_nil id)]
    simp [MAX_NO_READING_CACHE]
  · rw [if_neg h5]
    by_cases hm : id ∈ cache
    · rw [if_pos hm]
      exact hlen
    · rw [if_neg hm]
      simp only [List.length_append, List.length_singleton,
        MAX_NO_READING_CACHE] at h5 ⊢
      omega

/-- C7.  getLatestReading answers null — not an error — on a registry
not-found; it then remembers the sensor id in the capped negative-result set,
so that an immediately repeated call for the same id (whatever the registry
would now answer) returns null without issuing a network request; and an
insertion never pushes the set past its 500-id cap, since reaching the cap
clears the set wholesale before adding. -/
theorem latest_reading_negative_cache (cache : List String) (id : String)
    (resp2 : ReadingResponse)
    (hlen : cache.length ≤ MAX_NO_READING_CACHE) :
    (getLatestReading cache id .notFound).result = .ok none ∧
    getLatestReading (getLatestReading cache id .notFound).cache id resp2
      = ⟨.ok none, (getLatestReading cache id .notFound).cache, false⟩ ∧
    (getLatestReading cache id .notFound).cache.length ≤ MAX_NO_READING_CACHE := by
  by_cases hm : id ∈ cache
  · refine ⟨by simp [getLatestReading, hm], ?_, by simpa [getLatestReading, hm]⟩
    simp [getLatestReading, hm]
  · have hcache : (getLatestReading cache id .notFound).cache
        = noReadingCacheAdd cache id := by
      simp [getLatestReading, hm]
    refine ⟨by simp [getLatestReading, hm], ?_, ?_⟩
    · rw [hcache]
      simp [getLatestReading, mem_noReadingCacheAdd cache id]
    · rw [hcache]
      exact length_noReadingCacheAdd cache id hlen

/-- Witness for C7 with an empty cache and a would-be OK second response. -/
theorem latest_reading_negative_cache_witness :
    (getLatestReading [] "sx" .notFound).result = .ok none ∧
    getLatestReading (getLatestReading [] "sx" .notFound).cache "sx"
        (.okReading ⟨"sx", "t0"⟩)
      = ⟨.ok none, (getLatestReading [] "sx" .notFound).cache, false⟩ ∧
    (getLatestReading [] "sx" .notFound).cache.length ≤ MAX_NO_READING_CACHE :=
  latest_reading_negative_cache [] "sx" (.okReading ⟨"sx", "t0"⟩)
    (by simp [MAX_NO_READING_CACHE])

/-- The Map.set model changes the length only on a fresh key. -/
theorem jsMapSet_length {α : Type} (m : List (String × α)) (k : String) (v : α) :
    (jsMapSet m k v).length
      = if m.any (fun p => p.1 = k) then m.length else m.length + 1 := by
  unfold jsMapSet
  split <;> simp

/-- C8.  The keyed fetch-result cache is bounded at 20 entries: insertion
evicts the oldest (first) key exactly when the size exceeds the cap, so a
cache within the cap stays within the cap after any insertion completes. -/
theorem bbox_cache_bounded {α : Type} (m : List (String × α)) (k : String)
    (v : α) (hlen : m.length ≤ BBOX_CACHE_MAX_ENTRIES) :
    (insertEvictOldest m k v).length ≤ BBOX_CACHE_MAX_ENTRIES ∧
    (BBOX_CACHE_MAX_ENTRIES < (jsMapSet m k v).length →
      insertEvictOldest m k v = (jsMapSet m k v).drop 1) := by
  have hlen2 : (jsMapSet m k v).length ≤ m.length + 1 := by
    rw [jsMapSet_length]; split <;> omega
  simp only [insertEvictOldest]
  constructor
  · split
    · simp only [List.length_drop]
      omega
    · omega
  · intro h2
    rw [if_pos h2]

/-- Witness for C8 at a one-entry cache of sensor lists. -/
theorem bbox_cache_bounded_witness :
    (insertEvictOldest [("old", [])] "new" ([⟨"a", some 1, some 2⟩] : List Sensor)).length
        ≤ BBOX_CACHE_MAX_ENTRIES ∧
    (BBOX_CACHE_MAX_ENTRIES
        < (jsMapSet [("old", [])] "new" ([⟨"a", some 1, some 2⟩] : List Sensor)).length →
      insertEvictOldest [("old", [])] "new" ([⟨"a", some 1, some 2⟩] : List Sensor)
        = (jsMapSet [("old", [])] "new" ([⟨"a", some 1, some 2⟩] : List Sensor)).drop 1) :=
  bbox_cache_bounded [("old", [])] "new" [⟨"a", some 1, some 2⟩]
    (by simp [BBOX_CACHE_MAX_ENTRIES])

/-- After Map.set, the key is present with the new value. -/
theorem jsMapLookup_jsMapSet {α : Type} (m : List (String × α)) (k : String)
    (v : α) : jsMapLookup (jsMapSet m k v) k = some v := by
  by_cases h : m.any (fun p => p.1 = k)
  · simp only [jsMapSet, if_pos h, jsMapLookup]
    induction m with
    | nil => simp at h
    | cons hd tl ih =>
      by_cases hk : hd.1 = k
      · simp [hk]
      · simp only [List.any_cons, Bool.or_eq_true, decide_eq_true_eq] at h
        rcases h with h | h
        · exact absurd h hk
        · simpa [hk] using ih (by simpa using h)
  · simp only [jsMapSet, if_neg h, jsMapLookup]
    have hnone : m.find? (fun p => decide (p.1 = k)) = none := by
      rw [List.find?_eq_none]
      intro p hp hpk
      exact h (List.any_eq_true.mpr ⟨p, hp, hpk⟩)
    simp [List.find?_append, hnone]

/-- After insertion with eviction into a within-cap cache, the inserted key is
present with the inserted value. -/
theorem jsMapLookup_insertEvictOldest {α : Type} (m : List (String × α))
    (k : String) (v : α) (hlen : m.length ≤ BBOX_CACHE_MAX_ENTRIES) :
    jsMapLookup (insertEvictOldest m k v) k = some v := by
  simp only [insertEvictOldest]
  by_cases hbig : BBOX_CACHE_MAX_ENTRIES < (jsMapSet m k v).length
  · rw [if_pos hbig]
    have hfresh : ¬ (m.any (fun p => p.1 = k) = true) := by
      intro hh
      rw [jsMapSet_length, if_pos hh] at hbig
      omega
    rw [jsMapSet, if_neg hfresh] at hbig ⊢
    cases m with
    | nil => simp [BBOX_CACHE_MAX_ENTRIES] at hbig
    | cons hd tl =>
      have hnone : tl.find? (fun p => decide (p.1 = k)) = none := by
        rw [List.find?_eq_none]
        intro p hp hpk
        exact hfresh (List.any_eq_true.mpr ⟨p, List.mem_cons_of_mem hd hp, hpk⟩)
      simp [jsMapLookup, List.find?_append, hnone]
  · rw [if_neg hbig]
    exact jsMapLookup_jsMapSet m k v

/-- C9.  When the rectangular phase of a current viewport fetch succeeded and
some per-type radius pass failed, the resolve step still publishes the merged
sorted list, stores it under the cache key, clears the loading flag, records
only the soft warning in radiusError, and leaves the hard sensorsError
untouched. -/
theorem radius_failure_soft_warning (st : OrchState) (bb : Bounds)
    (eo : Option Bounds) (k : String) (chunks : List (List Sensor))
    (rp : List RadiusPass) (hfail : anyRadiusFailed rp = true)
    (hlen : st.bboxCache.length ≤ BBOX_CACHE_MAX_ENTRIES) :
    (resolveViewportFetch st st.fetchId (some bb) eo (some k)
        (.completed chunks rp)).allSensors
      = publishList chunks rp (some bb) eo ∧
    (resolveViewportFetch st st.fetchId (some bb) eo (some k)
        (.completed chunks rp)).radiusError
      = some "Offshore sensors may be incomplete." ∧
    (resolveViewportFetch st st.fetchId (some bb) eo (some k)
        (.completed chunks rp)).sensorsError = st.sensorsError ∧
    jsMapLookup
        (resolveViewportFetch st st.fetchId (some bb) eo (some k)
          (.completed chunks rp)).bboxCache k
      = some (publishList chunks rp (some bb) eo) ∧
    (resolveViewportFetch st st.fetchId (some bb) eo (some k)
        (.completed chunks rp)).loadingSensors = false := by
  simp only [resolveViewportFetch, if_neg (not_not_intro rfl), Option.isSome_some,
    ite_true, if_pos hfail]
  simp [hfail, jsMapLookup_insertEvictOldest _ _ _ hlen]

/-- Witness for C9: one successful bbox chunk, one failed radius pass. -/
theorem radius_failure_soft_warning_witness :
    (resolveViewportFetch ⟨5, [], 0, true, none, none, [], none, ""⟩ 5
        (some ⟨0, 0, 10, 10⟩) none (some "key")
        (.completed [[⟨"a", some 1, some 1⟩]] [.failed])).allSensors
      = publishList [[⟨"a", some 1, some 1⟩]] [.failed] (some ⟨0, 0, 10, 10⟩) none ∧
    (resolveViewportFetch ⟨5, [], 0, true, none, none, [], none, ""⟩ 5
        (some ⟨0, 0, 10, 10⟩) none (some "key")
        (.completed [[⟨"a", some 1, some 1⟩]] [.failed])).radiusError
      = some "Offshore sensors may be incomplete." ∧
    (resolveViewportFetch ⟨5, [], 0, true, none, none, [], none, ""⟩ 5
        (some ⟨0, 0, 10, 10⟩) none (some "key")
        (.completed [[⟨"a", some 1, some 1⟩]] [.failed])).sensorsError
      = (⟨5, [], 0, true, none, none, [], none, ""⟩ : OrchState).sensorsError ∧
    jsMapLookup
        (resolveViewportFetch ⟨5, [], 0, true, none, none, [], none, ""⟩ 5
          (some ⟨0, 0, 10, 10⟩) none (some "key")
          (.completed [[⟨"a", some 1, some 1⟩]] [.failed])).bboxCache "key"
      = some (publishList [[⟨"a", some 1, some 1⟩]] [.failed]
          (some ⟨0, 0, 10, 10⟩) none) ∧
    (resolveViewportFetch ⟨5, [], 0, true, none, none, [], none, ""⟩ 5
        (some ⟨0, 0, 10, 10⟩) none (some "key")
        (.completed [[⟨"a", some 1, some 1⟩]] [.failed])).loadingSensors = false :=
  radius_failure_soft_warning ⟨5, [], 0, true, none, none, [], none, ""⟩
    ⟨0, 0, 10, 10⟩ none "key" [[⟨"a", some 1, some 1⟩]] [.failed]
    (by simp [anyRadiusFailed]) (by simp [BBOX_CACHE_MAX_ENTRIES])

/-- The membership test on a sensor with both coordinates, written as a plain
logical formula. -/
theorem sensorInBounds_some_iff (b : Bounds) (i : String) (la lo : ℚ) :
    sensorInBounds b ⟨i, some la, some lo⟩ ↔
      (b.south ≤ la ∧ la ≤ b.north) ∧
      ((boundsCrossDateline b ∧
          ((lo ≥ b.west ∧ lo ≤ 180) ∨ (lo ≥ -180 ∧ lo ≤ b.east))) ∨
        (¬ boundsCrossDateline b ∧ lo ≥ b.west ∧ lo ≤ b.east)) := by
  show coordPairInBounds b (some la) (some lo) ↔ _
  simp only [coordPairInBounds]
  by_cases hlat : la < b.south ∨ la > b.north
  · rw [if_pos hlat]
    constructor
    · exact False.elim
    · rintro ⟨⟨h1, h2⟩, -⟩
      rcases hlat with h | h <;> linarith
  · rw [if_neg hlat]
    push_neg at hlat
    by_cases hc : boundsCrossDateline b
    · rw [if_pos hc]
      constructor
      · intro h
        exact ⟨hlat, Or.inl ⟨hc, h⟩⟩
      · rintro ⟨-, ⟨-, h⟩ | ⟨hnc, -⟩⟩
        · exact h
        · exact absurd hc hnc
    · rw [if_neg hc]
      constructor
      · intro h
        exact ⟨hlat, Or.inr ⟨hc, h⟩⟩
      · rintro ⟨-, ⟨hcc, -⟩ | ⟨-, h⟩⟩
        · exact absurd hcc hc
        · exact h

/-- A box with west ≤ east and span at most 180 does not cross the dateline. -/
theorem not_crossDateline_of (b : Bounds) (h1 : b.west ≤ b.east)
    (h2 : b.east - b.west ≤ 180) : ¬ boundsCrossDateline b := by
  unfold boundsCrossDateline
  rintro (h | h) <;> linarith

/-- A sensor without both coordinates passes no bounds membership test. -/
theorem not_sensorInBounds_of_missing (b : Bounds) (s : Sensor)
    (h : s.latitude = none ∨ s.longitude = none) : ¬ sensorInBounds b s := by
  unfold sensorInBounds
  rcases s with ⟨i, la, lo⟩
  rcases h with h | h <;> simp only at h <;> subst h
  · intro hh
    exact hh
  · rcases la with _ | la
    · intro hh
      exact hh
    · intro hh
      exact hh

/-- C2 counterexample.  The normalized bounds (west −120, east 120) cross the
antimeridian (span 240 > 180); boundsToFetchSegments splits them into
[−120, 180] and [−180, 120], and the first returned segment itself crosses
(span 300 > 180) — refuting "neither returned segment individually crosses
the antimeridian". -/
theorem crossing_split_counterexample :
    boundsCrossDateline ⟨-120, 0, 120, 10⟩ ∧
    boundsToFetchSegments ⟨-120, 0, 120, 10⟩
      = [⟨-120, 0, 180, 10⟩, ⟨-180, 0, 120, 10⟩] ∧
    boundsCrossDateline ⟨-120, 0, 180, 10⟩ := by
  refine ⟨by norm_num [boundsCrossDateline], ?_, by norm_num [boundsCrossDateline]⟩
  norm_num [boundsToFetchSegments, isFullWorldBounds, boundsCrossDateline,
    fullWorldSegments]

/-- C2 amended.  For normalized crossing bounds in the standard wrap form
(0 ≤ west ≤ 180 and −180 ≤ east ≤ 0), toFetchSegments returns exactly 2
segments, neither crosses the antimeridian, and every sensor inside the
bounds (per the dateline-aware membership test) lies in one of the
segments. -/
theorem crossing_split_two_segments (b : Bounds)
    (hcross : boundsCrossDateline b)
    (hw0 : 0 ≤ b.west) (hw1 : b.west ≤ 180)
    (he0 : -180 ≤ b.east) (he1 : b.east ≤ 0) :
    (boundsToFetchSegments b).length = 2 ∧
    (∀ seg ∈ boundsToFetchSegments b, ¬ boundsCrossDateline seg) ∧
    (∀ s : Sensor, sensorInBounds b s →
      ∃ seg ∈ boundsToFetchSegments b, sensorInBounds seg s) := by
  by_cases hfw : isFullWorldBounds b
  · have hseg : boundsToFetchSegments b
        = [⟨-180, b.south, 0, b.north⟩, ⟨0, b.south, 180, b.north⟩] := by
      simp [boundsToFetchSegments, if_pos hfw, fullWorldSegments]
    have hfw2 : |b.west - 180| < 1/1000000 ∧ |b.east + 180| < 1/1000000 := by
      unfold isFullWorldBounds at hfw
      rwa [if_pos hcross] at hfw
    have hwlo : b.west > 180 - 1/1000000 := by
      have := abs_lt.mp hfw2.1
      linarith [this.1]
    have hehi : b.east < -180 + 1/1000000 := by
      have := abs_lt.mp hfw2.2
      linarith [this.2]
    rw [hseg]
    refine ⟨rfl, ?_, ?_⟩
    · intro seg hs
      simp only [List.mem_cons, List.mem_singleton, List.not_mem_nil, or_false] at hs
      rcases hs with rfl | rfl
      · exact not_crossDateline_of _ (by norm_num) (by norm_num)
      · exact not_crossDateline_of _ (by norm_num) (by norm_num)
    · rintro ⟨i, la, lo⟩ hs
      rcases la with _ | la
      · exact absurd hs (not_sensorInBounds_of_missing _ _ (Or.inl rfl))
      rcases lo with _ | lo
      · exact absurd hs (not_sensorInBounds_of_missing _ _ (Or.inr rfl))
      rcases (sensorInBounds_some_iff b i la lo).mp hs with
        ⟨hlat, ⟨-, hlon⟩ | ⟨hnc, -⟩⟩
      · rcases hlon with ⟨h1, h2⟩ | ⟨h1, h2⟩
        · refine ⟨⟨0, b.south, 180, b.north⟩, by simp, ?_⟩
          rw [sensorInBounds_some_iff]
          refine ⟨hlat, Or.inr ⟨not_crossDateline_of _ (by norm_num) (by norm_num), ?_, ?_⟩⟩
          · simp only
            linarith
          · simpa using h2
        · refine ⟨⟨-180, b.south, 0, b.north⟩, by simp, ?_⟩
          rw [sensorInBounds_some_iff]
          refine ⟨hlat, Or.inr ⟨not_crossDateline_of _ (by norm_num) (by norm_num), ?_, ?_⟩⟩
          · simpa using h1
          · simp only
            linarith
      · exact absurd hcross hnc
  · have hseg : boundsToFetchSegments b
        = [⟨b.west, b.south, 180, b.north⟩, ⟨-180, b.south, b.east, b.north⟩] := by
      simp [boundsToFetchSegments, if_neg hfw, if_pos hcross]
    have hnc1 : ¬ boundsCrossDateline (⟨b.west, b.south, 180, b.north⟩ : Bounds) :=
      not_crossDateline_of _ (by simp only; linarith) (by simp only; linarith)
    have hnc2 : ¬ boundsCrossDateline (⟨-180, b.south, b.east, b.north⟩ : Bounds) :=
      not_crossDateline_of _ (by simp only; linarith) (by simp only; linarith)
    rw [hseg]
    refine ⟨rfl, ?_, ?_⟩
    · intro seg hs
      simp only [List.mem_cons, List.mem_singleton, List.not_mem_nil, or_false] at hs
      rcases hs with rfl | rfl
      · exact hnc1
      · exact hnc2
    · rintro ⟨i, la, lo⟩ hs
      rcases la with _ | la
      · exact absurd hs (not_sensorInBounds_of_missing _ _ (Or.inl rfl))
      rcases lo with _ | lo
      · exact absurd hs (not_sensorInBounds_of_missing _ _ (Or.inr rfl))
      rcases (sensorInBounds_some_iff b i la lo).mp hs with
        ⟨hlat, ⟨-, hlon⟩ | ⟨hnc, -⟩⟩
      · rcases hlon with ⟨h1, h2⟩ | ⟨h1, h2⟩
        · refine ⟨⟨b.west, b.south, 180, b.north⟩, by simp, ?_⟩
          rw [sensorInBounds_some_iff]
          exact ⟨hlat, Or.inr ⟨hnc1, h1, h2⟩⟩
        · refine ⟨⟨-180, b.south, b.east, b.north⟩, by simp, ?_⟩
          rw [sensorInBounds_some_iff]
          exact ⟨hlat, Or.inr ⟨hnc2, h1, h2⟩⟩
      · exact absurd hcross hnc

/-- Witness for C2 at the spec scenario bounds (west 170, east −170): the
split is [170, 180] and [−180, −170], neither crossing, and a sensor at
longitude 175 inside the crossing viewport lands in a returned segment. -/
theorem crossing_split_two_segments_witness :
    (boundsToFetchSegments ⟨170, -10, -170, 10⟩).length = 2 ∧
    ¬ boundsCrossDateline (⟨170, -10, 180, 10⟩ : Bounds) ∧
    ∃ seg ∈ boundsToFetchSegments ⟨170, -10, -170, 10⟩,
      sensorInBounds seg ⟨"w", some 0, some 175⟩ := by
  have hmain := crossing_split_two_segments ⟨170, -10, -170, 10⟩
    (by norm_num [boundsCrossDateline]) (by norm_num) (by norm_num)
    (by norm_num) (by norm_num)
  refine ⟨hmain.1, ?_, ?_⟩
  · exact hmain.2.1 ⟨170, -10, 180, 10⟩
      (by norm_num [boundsToFetchSegments, isFullWorldBounds, boundsCrossDateline])
  · exact hmain.2.2 ⟨"w", some 0, some 175⟩
      (by rw [sensorInBounds_some_iff]
          norm_num [boundsCrossDateline])

/-- C3 counterexample.  For b = (west −90, east 90) — which does NOT cross
the antimeridian, so the claimed exception does not apply — and margin
0.15 > 0, the expanded box spans 207 > 180 degrees, so it crosses in
west < east form and boundsContained deliberately answers false. -/
theorem expand_contains_counterexample :
    ¬ boundsCrossDateline ⟨-90, 0, 90, 10⟩ ∧
    (0 : ℚ) < 3/20 ∧
    ¬ boundsContained ⟨-90, 0, 90, 10⟩ (expandBounds ⟨-90, 0, 90, 10⟩ (3/20)) := by
  refine ⟨by norm_num [boundsCrossDateline], by norm_num, ?_⟩
  norm_num [boundsContained, expandBounds, boundsCrossDateline]

/-- C3 amended.  For normalized bounds (west/east in [−180, 180], south ≤
north) and any margin m > 0, the original is contained in its expansion —
except exactly when the EXPANDED box crosses the antimeridian while stored in
west < east form (the documented containment false-negative), which happens
both when b itself crosses stored west < east and when a wide non-crossing b
expands past a 180-degree span. -/
theorem expand_contains_unless_outer_crossing (b : Bounds) (m : ℚ)
    (hw0 : -180 ≤ b.west) (hw1 : b.west ≤ 180)
    (he0 : -180 ≤ b.east) (he1 : b.east ≤ 180)
    (hsn : b.south ≤ b.north) (hm : 0 < m)
    (hexc : ¬ (boundsCrossDateline (expandBounds b m) ∧
      (expandBounds b m).west < (expandBounds b m).east)) :
    boundsContained b (expandBounds b m) := by
  have hh : (b.north - b.south) * (m / 2) ≥ 0 :=
    mul_nonneg (by linarith) (by linarith)
  by_cases hb : boundsCrossDateline b
  · have hew : (expandBounds b m).west = b.west - (180 - b.west) * (m / 2) := by
      simp [expandBounds, hb]
    have hee : (expandBounds b m).east = b.east + (b.east - (-180)) * (m / 2) := by
      simp [expandBounds, hb]
    have hes : (expandBounds b m).south = b.south - (b.north - b.south) * (m / 2) := by
      simp [expandBounds, hb]
    have hen : (expandBounds b m).north = b.north + (b.north - b.south) * (m / 2) := by
      simp [expandBounds, hb]
    have hB : (180 - b.west) * (m / 2) ≥ 0 := mul_nonneg (by linarith) (by linarith)
    have hC : (b.east - (-180)) * (m / 2) ≥ 0 := mul_nonneg (by linarith) (by linarith)
    have hbor : b.west > b.east ∨ b.east - b.west > 180 := hb
    rcases hbor with hb1 | hb2
    · have hlat : ¬ (b.south < (expandBounds b m).south ∨
          b.north > (expandBounds b m).north) := by
        rw [hes, hen]
        rintro (h | h) <;> linarith
      unfold boundsContained
      rw [if_neg hlat, if_neg hexc]
      by_cases hce : boundsCrossDateline (expandBounds b m)
      · rw [if_pos hce, if_pos hb]
        rw [hew, hee]
        constructor <;> linarith
      · rw [if_neg hce, if_pos hb]
        rw [hew, hee]
        constructor <;> linarith
    · exfalso
      apply hexc
      have hwe : (expandBounds b m).west ≤ b.west := by
        rw [hew]; linarith
      have hee2 : b.east ≤ (expandBounds b m).east := by
        rw [hee]; linarith
      constructor
      · right
        linarith
      · linarith
  · have hble : b.west ≤ b.east ∧ b.east - b.west ≤ 180 := by
      unfold boundsCrossDateline at hb
      push_neg at hb
      exact hb
    have hw : (b.east - b.west) * (m / 2) ≥ 0 :=
      mul_nonneg (by linarith [hble.1]) (by linarith)
    have hew : (expandBounds b m).west = b.west - (b.east - b.west) * (m / 2) := by
      simp [expandBounds, hb]
    have hee : (expandBounds b m).east = b.east + (b.east - b.west) * (m / 2) := by
      simp [expandBounds, hb]
    have hes : (expandBounds b m).south = b.south - (b.north - b.south) * (m / 2) := by
      simp [expandBounds, hb]
    have hen : (expandBounds b m).north = b.north + (b.north - b.south) * (m / 2) := by
      simp [expandBounds, hb]
    have hce : ¬ boundsCrossDateline (expandBounds b m) := by
      intro hcc
      apply hexc
      refine ⟨hcc, ?_⟩
      rcases hcc with hcc | hcc
      · exfalso
        rw [hew, hee] at hcc
        linarith
      · rw [hew, hee] at hcc ⊢
        linarith
    have hlat : ¬ (b.south < (expandBounds b m).south ∨
        b.north > (expandBounds b m).north) := by
      rw [hes, hen]
      rintro (h | h) <;> linarith
    unfold boundsContained
    rw [if_neg hlat, if_neg hexc, if_neg hce, if_neg hb]
    rw [hew, hee]
    constructor <;> linarith

/-- Witness for C3 at b = (0, 0, 10, 10) and margin 0.15. -/
theorem expand_contains_unless_outer_crossing_witness :
    boundsContained ⟨0, 0, 10, 10⟩ (expandBounds ⟨0, 0, 10, 10⟩ (3/20)) :=
  expand_contains_unless_outer_crossing ⟨0, 0, 10, 10⟩ (3/20)
    (by norm_num) (by norm_num) (by norm_num) (by norm_num) (by norm_num)
    (by norm_num)
    (by norm_num [boundsCrossDateline, expandBounds])

/-- The withoutCoords filter is the boolean negation of the withCoords
filter. -/
theorem noCoords_eq_not_hasCoords (s : Sensor) :
    (s.latitude.isNone || s.longitude.isNone) = !(decide (hasCoords s)) := by
  rcases s with ⟨i, la, lo⟩
  rcases la with _ | la <;> rcases lo with _ | lo <;> simp [hasCoords]

/-- sortSensorsByCenter permutes its input: the two filter partitions
reassemble, and the stable sort permutes the first partition. -/
theorem sortSensorsByCenter_perm (l : List Sensor) (c : ℚ × ℚ) :
    (sortSensorsByCenter l c).Perm l := by
  unfold sortSensorsByCenter
  refine ((List.perm_insertionSort _ _).append (List.Perm.refl _)).trans ?_
  have hfun : (fun s : Sensor => s.latitude.isNone || s.longitude.isNone)
      = fun s => !(decide (hasCoords s)) := funext noCoords_eq_not_hasCoords
  rw [hfun]
  exact List.filter_append_perm _ l

/-- In an id-deduplicated list, looking up any member by id finds that
member. -/
theorem nodup_find_self (A : List Sensor) (h : (A.map Sensor.id).Nodup) :
    ∀ s ∈ A, A.find? (fun t => t.id == s.id) = some s := by
  induction A with
  | nil => intro s hs; cases hs
  | cons a rest ih =>
    intro s hs
    rcases List.mem_cons.mp hs with rfl | hs2
    · simp [List.find?_cons]
    · have hne : ¬ (a.id == s.id) = true := by
        simp only [List.map_cons, List.nodup_cons] at h
        intro hbeq
        exact h.1 ((beq_iff_eq.mp hbeq) ▸ List.mem_map.mpr ⟨s, hs2, rfl⟩)
      rw [List.find?_cons]
      simp only [Bool.not_eq_true] at hne
      rw [hne]
      exact ih (by simpa using (List.nodup_cons.mp (by simpa using h)).2) s hs2

/-- Invariant of the seenIds fold: over any suffix l, starting from an
accumulator A that deduplicates an arrival history arr, the fold yields a
deduplicated accumulator in which every member is the first arrival bearing
its id, and which covers exactly the arrived ids. -/
theorem foldl_appendIfNew_inv (l : List Sensor) :
    ∀ (A arr : List Sensor),
      (A.map Sensor.id).Nodup →
      (∀ s ∈ A, arr.find? (fun t => t.id == s.id) = some s) →
      (∀ i : String, (∃ t ∈ arr, t.id = i) ↔ ∃ t ∈ A, t.id = i) →
      ((l.foldl appendIfNew A).map Sensor.id).Nodup ∧
      (∀ s ∈ l.foldl appendIfNew A,
        (arr ++ l).find? (fun t => t.id == s.id) = some s) ∧
      (∀ i : String,
        (∃ t ∈ arr ++ l, t.id = i) ↔ ∃ t ∈ l.foldl appendIfNew A, t.id = i) := by
  induction l with
  | nil =>
    intro A arr h1 h2 h3
    simpa using ⟨h1, h2, h3⟩
  | cons s l ih =>
    intro A arr h1 h2 h3
    rw [List.foldl_cons, List.append_cons arr s l]
    by_cases hmem : s.id ∈ A.map Sensor.id
    · have hA : appendIfNew A s = A := by rw [appendIfNew, if_pos hmem]
      rw [hA]
      apply ih A (arr ++ [s]) h1
      · intro t ht
        rw [List.find?_append, h2 t ht]
        rfl
      · intro i
        rw [← h3 i]
        constructor
        · rintro ⟨t, ht, hid⟩
          rcases List.mem_append.mp ht with ht | ht
          · exact ⟨t, ht, hid⟩
          · have : t = s := List.mem_singleton.mp ht
            subst this
            subst hid
            rcases List.mem_map.mp hmem with ⟨u, hu, huid⟩
            exact (h3 t.id).mpr ⟨u, hu, huid⟩
        · rintro ⟨t, ht, hid⟩
          exact ⟨t, List.mem_append_left _ ht, hid⟩
    · have hA : appendIfNew A s = A ++ [s] := by rw [appendIfNew, if_neg hmem]
      rw [hA]
      have hfreshA : ∀ t ∈ A, t.id ≠ s.id := by
        intro t ht hid
        exact hmem (hid ▸ List.mem_map.mpr ⟨t, ht, rfl⟩)
      have hfreshArr : arr.find? (fun t => t.id == s.id) = none := by
        rw [List.find?_eq_none]
        intro x hx hxx
        rcases (h3 s.id).mp ⟨x, hx, beq_iff_eq.mp hxx⟩ with ⟨u, hu, huid⟩
        exact hfreshA u hu huid
      apply ih (A ++ [s]) (arr ++ [s])
      · rw [List.map_append, List.nodup_append]
        refine ⟨h1, by simp, ?_⟩
        intro x hx
        simp only [List.map_cons, List.map_nil, List.mem_singleton]
        rintro rfl
        exact hmem hx
      · intro t ht
        rcases List.mem_append.mp ht with ht | ht
        · rw [List.find?_append, h2 t ht]
          rfl
        · have : t = s := List.mem_singleton.mp ht
          subst this
          rw [List.find?_append, hfreshArr]
          simp
      · intro i
        constructor
        · rintro ⟨t, ht, hid⟩
          rcases List.mem_append.mp ht with ht | ht
          · rcases (h3 i).mp ⟨t, ht, hid⟩ with ⟨u, hu, huid⟩
            exact ⟨u, List.mem_append_left _ hu, huid⟩
          · exact ⟨t, List.mem_append_right _ ht, hid⟩
        · rintro ⟨t, ht, hid⟩
          rcases List.mem_append.mp ht with ht | ht
          · rcases (h3 i).mpr ⟨t, ht, hid⟩ with ⟨u, hu, huid⟩
            exact ⟨u, List.mem_append_left _ hu, huid⟩
          · exact ⟨t, List.mem_append_right _ ht, hid⟩

/-- The seenIds fold from an empty accumulator: deduplicated ids, and each
member is the first occurrence of its id in the input. -/
theorem dedupFold_spec (l : List Sensor) :
    ((l.foldl appendIfNew []).map Sensor.id).Nodup ∧
    (∀ s ∈ l.foldl appendIfNew [],
      l.find? (fun t => t.id == s.id) = some s) ∧
    (∀ i : String, (∃ t ∈ l, t.id = i) ↔ ∃ t ∈ l.foldl appendIfNew [], t.id = i) := by
  have h := foldl_appendIfNew_inv l [] [] (by simp) (by simp) (by simp)
  simpa using h

/-- The seenIds fold preserves id-deduplication of the accumulator. -/
theorem nodup_foldl_appendIfNew (l A : List Sensor)
    (h : (A.map Sensor.id).Nodup) :
    ((l.foldl appendIfNew A).map Sensor.id).Nodup :=
  (foldl_appendIfNew_inv l A A h (nodup_find_self A h) (fun _ => Iff.rfl)).1

/-- The nested bbox-chunk fold is the seenIds fold over the flattened
chunks. -/
theorem foldl_chunks_eq (chunks : List (List Sensor)) :
    ∀ A, chunks.foldl (fun acc chunk => chunk.foldl appendIfNew acc) A
      = chunks.flatten.foldl appendIfNew A := by
  induction chunks with
  | nil => intro A; rfl
  | cons c cs ih =>
    intro A
    rw [List.foldl_cons, List.flatten_cons, List.foldl_append, ih]

theorem mergeChunks_eq (chunks : List (List Sensor)) :
    mergeChunks chunks = chunks.flatten.foldl appendIfNew [] := by
  rw [mergeChunks]
  exact foldl_chunks_eq chunks []

/-- Rebuilding a Map from records with fresh, deduplicated ids appends the
key-value pairs in order. -/
theorem foldl_mapset_fresh (acc : List Sensor) :
    ∀ (m : List (String × Sensor)),
      (acc.map Sensor.id).Nodup →
      (∀ s ∈ acc, m.any (fun p => p.1 = s.id) = false) →
      acc.foldl (fun m2 s => jsMapSet m2 s.id s) m
        = m ++ acc.map (fun s => (s.id, s)) := by
  induction acc with
  | nil => intro m _ _; simp
  | cons s rest ih =>
    intro m h1 h2
    rw [List.foldl_cons]
    have hfresh : m.any (fun p => p.1 = s.id) = false := h2 s (by simp)
    have hset : jsMapSet m s.id s = m ++ [(s.id, s)] := by
      rw [jsMapSet, if_neg (by simp [hfresh])]
    simp only [List.map_cons, List.nodup_cons] at h1
    rw [hset, ih (m ++ [(s.id, s)]) h1.2]
    · simp
    · intro t ht
      rw [List.any_append]
      have h2t : m.any (fun p => p.1 = t.id) = false :=
        h2 t (List.mem_cons_of_mem s ht)
      have hne : ¬ (s.id = t.id) := by
        intro hh
        exact h1.1 (hh ▸ List.mem_map.mpr ⟨t, ht, rfl⟩)
      simp [h2t, hne]

/-- new Map(accumulated.map(s =\x7b [s.id, s])) is just the paired list when
the accumulated ids are deduplicated. -/
theorem buildById_eq (acc : List Sensor) (h : (acc.map Sensor.id).Nodup) :
    buildById acc = acc.map (fun s => (s.id, s)) := by
  have := foldl_mapset_fresh acc [] h (by simp)
  simpa [buildById] using this

/-- The add-if-unseen fold over byId mirrors the seenIds fold on the record
level. -/
theorem radiusPage_fold_eq (page : List Sensor) :
    ∀ (A : List Sensor), (A.map Sensor.id).Nodup →
      page.foldl
          (fun m s => if m.any (fun p => p.1 = s.id) then m else jsMapSet m s.id s)
          (A.map (fun s => (s.id, s)))
        = (page.foldl appendIfNew A).map (fun s => (s.id, s)) := by
  induction page with
  | nil => intro A _; rfl
  | cons s rest ih =>
    intro A h
    rw [List.foldl_cons, List.foldl_cons]
    by_cases hmem : s.id ∈ A.map Sensor.id
    · have hany : (A.map (fun s2 => (s2.id, s2))).any (fun p => p.1 = s.id) = true := by
        rcases List.mem_map.mp hmem with ⟨t, ht, hid⟩
        exact List.any_eq_true.mpr
          ⟨(t.id, t), List.mem_map.mpr ⟨t, ht, rfl⟩, by simp [hid]⟩
      rw [if_pos hany, appendIfNew, if_pos hmem]
      exact ih A h
    · have hany : (A.map (fun s2 => (s2.id, s2))).any (fun p => p.1 = s.id) = false := by
        rw [List.any_eq_false]
        intro x hx
        rcases List.mem_map.mp hx with ⟨u, hu, rfl⟩
        simp only [decide_eq_true_eq]
        intro hh
        exact hmem (hh ▸ List.mem_map.mpr ⟨u, hu, rfl⟩)
      have hset : jsMapSet (A.map fun s2 => (s2.id, s2)) s.id s
          = (A.map fun s2 => (s2.id, s2)) ++ [(s.id, s)] := by
        rw [jsMapSet, if_neg (by simp [hany])]
      rw [if_neg (by simp [hany]), appendIfNew, if_neg hmem, hset]
      have hmapapp : (A.map fun s2 => (s2.id, s2)) ++ [(s.id, s)]
          = (A ++ [s]).map (fun s2 => (s2.id, s2)) := by
        simp
      rw [hmapapp]
      apply ih
      rw [List.map_append, List.nodup_append]
      refine ⟨h, by simp, ?_⟩
      intro x hx
      simp only [List.map_cons, List.map_nil, List.mem_singleton]
      rintro rfl
      exact hmem hx

/-- The radius page merge equals the seenIds merge when the accumulator ids
are deduplicated (as they always are at its call sites). -/
theorem radiusPageMerge_eq (acc page : List Sensor)
    (h : (acc.map Sensor.id).Nodup) :
    radiusPageMerge acc page = page.foldl appendIfNew acc := by
  rw [radiusPageMerge, buildById_eq acc h, radiusPage_fold_eq page acc h]
  have hid : ((fun p : String × Sensor => p.2) ∘ fun s => (s.id, s)) = id := rfl
  rw [List.map_map, hid, List.map_id]

/-- A run of radius pages merges like the seenIds fold over their
flattening. -/
theorem pages_fold_eq (pages : List (List Sensor)) :
    ∀ acc, (acc.map Sensor.id).Nodup →
      pages.foldl radiusPageMerge acc = pages.flatten.foldl appendIfNew acc := by
  induction pages with
  | nil => intro acc _; rfl
  | cons p ps ih =>
    intro acc h
    rw [List.foldl_cons, List.flatten_cons, List.foldl_append,
      radiusPageMerge_eq acc p h]
    exact ih _ (nodup_foldl_appendIfNew p acc h)

/-- The whole merge pipeline — bbox chunks then radius passes — equals the
seenIds fold over the arrival order. -/
theorem mergedResult_eq (chunks : List (List Sensor)) (rp : List RadiusPass) :
    mergedResult chunks rp = (fetchArrivals chunks rp).foldl appendIfNew [] := by
  rw [mergedResult, mergeChunks_eq, fetchArrivals]
  suffices hgen : ∀ (rp2 : List RadiusPass) (pre : List Sensor),
      rp2.foldl applyRadiusPass (pre.foldl appendIfNew [])
        = (pre ++ (rp2.map (fun p => match p with
            | RadiusPass.ok pages => pages.flatten
            | RadiusPass.failed => [])).flatten).foldl appendIfNew [] by
    exact hgen rp chunks.flatten
  intro rp2
  induction rp2 with
  | nil => intro pre; simp
  | cons p ps ih =>
    intro pre
    rw [List.foldl_cons]
    cases p with
    | failed =>
      show ps.foldl applyRadiusPass (pre.foldl appendIfNew []) = _
      rw [ih pre]
      simp
    | ok pages =>
      show ps.foldl applyRadiusPass
          (pages.foldl radiusPageMerge (pre.foldl appendIfNew [])) = _
      rw [pages_fold_eq pages _ (dedupFold_spec pre).1, ← List.foldl_append,
        ih (pre ++ pages.flatten)]
      congr 1
      simp

/-- C5.  The published list of any viewport fetch contains no two records
with the same id — overlapping segments and radius-phase repeats included —
and whenever the same id arrived more than once, the published record for
that id is the first arrival (bbox task order, then radius pages). -/
theorem merge_dedup_first_wins (chunks : List (List Sensor))
    (rp : List RadiusPass) (bboxOpt expandedOpt : Option Bounds) :
    ((publishList chunks rp bboxOpt expandedOpt).map Sensor.id).Nodup ∧
    ∀ s ∈ publishList chunks rp bboxOpt expandedOpt,
      (fetchArrivals chunks rp).find? (fun t => t.id == s.id) = some s := by
  have hperm : (publishList chunks rp bboxOpt expandedOpt).Perm
      (mergedResult chunks rp) := by
    rcases h : bboxOpt.orElse (fun _ => expandedOpt) with _ | cb <;>
      simp only [publishList, h]
    · exact List.Perm.refl _
    · exact sortSensorsByCenter_perm _ _
  constructor
  · have h1 := (dedupFold_spec (fetchArrivals chunks rp)).1
    rw [← mergedResult_eq] at h1
    exact ((hperm.map Sensor.id).nodup_iff).mpr h1
  · intro s hs
    have hs2 : s ∈ mergedResult chunks rp := hperm.mem_iff.mp hs
    rw [mergedResult_eq] at hs2
    exact (dedupFold_spec (fetchArrivals chunks rp)).2.1 s hs2

/-- Witness for C5: the same id arrives twice in one chunk; the published
list keeps the first arrival only, and lookup by id finds it. -/
theorem merge_dedup_first_wins_witness :
    ((publishList [[⟨"a", some 1, some 1⟩, ⟨"a", some 2, some 2⟩]] [] none none).map
        Sensor.id).Nodup ∧
    (fetchArrivals [[⟨"a", some 1, some 1⟩, ⟨"a", some 2, some 2⟩]] []).find?
        (fun t => t.id == (⟨"a", some 1, some 1⟩ : Sensor).id)
      = some ⟨"a", some 1, some 1⟩ :=
  ⟨(merge_dedup_first_wins [[⟨"a", some 1, some 1⟩, ⟨"a", some 2, some 2⟩]] []
      none none).1,
    (merge_dedup_first_wins [[⟨"a", some 1, some 1⟩, ⟨"a", some 2, some 2⟩]] []
      none none).2 ⟨"a", some 1, some 1⟩
      (by simp [publishList, mergedResult, mergeChunks, appendIfNew])⟩

/-- C6 counterexample.  A boolean coordinate value is neither missing nor a
parseable number, yet toNum does not map it to null: it falls through to the
JavaScript Number coercion, and Number(false) is 0 — so an unparseable
coordinate CAN become exactly the zero the claim rules out. -/
theorem coordinate_coercion_counterexample :
    toNum (.vbool false) = some 0 ∧ toNum (.vbool false) ≠ none := by
  constructor
  · rfl
  · intro h
    cases h

/-- C6 amended.  Null, numeric and string coordinate fields are coerced to
numeric-or-null: the numeric string "37.5" becomes 37.5, null stays null, an
unparseable string becomes null (never zero), numbers pass through, the
scenario-5 record normalizes to latitude 37.5 / longitude null, and every
record surviving a bounds filter has both coordinates.  (Boolean values are
the documented exception: they coerce through Number to 0/1.) -/
theorem coordinate_coercion_amended :
    toNum (.vstr "37.5") = some (75/2) ∧
    toNum .vnull = none ∧
    parseFloatQ "" = none ∧
    (∀ s : String, parseFloatQ s = none → toNum (.vstr s) = none) ∧
    (∀ q : ℚ, toNum (.vnum q) = some q) ∧
    normalizeSensor ⟨"x", .vstr "37.5", .vnull, .vnull, .vnull, .vnull, none⟩
      = ⟨"x", some (75/2), none⟩ ∧
    (∀ (l : List Sensor) (b : Bounds) (s : Sensor),
      s ∈ filterSensorsByBounds l b →
        s.latitude.isSome ∧ s.longitude.isSome) := by
  have hsplit : splitFloat "37.5" = some ⟨false, ['3', '7'], ['5'], 0⟩ := rfl
  have hd1 : digitsToNat ['3', '7'] = 37 := rfl
  have hd2 : digitsToNat ['5'] = 5 := rfl
  have hparse : parseFloatQ "37.5" = some (75/2) := by
    rw [parseFloatQ, hsplit]
    norm_num [partsToQ, hd1, hd2]
  refine ⟨hparse, rfl, rfl, ?_, ?_, ?_, ?_⟩
  · intro s h
    exact h
  · intro q
    rfl
  · show (⟨"x",
        (toNum (.vstr "37.5")).orElse fun _ =>
          (toNum .vnull).orElse fun _ => toNum (geomCoord none 1),
        (toNum .vnull).orElse fun _ =>
          (toNum .vnull).orElse fun _ =>
            (toNum .vnull).orElse fun _ => toNum (geomCoord none 0)⟩ : Sensor)
      = ⟨"x", some (75/2), none⟩
    show (⟨"x", (parseFloatQ "37.5").orElse fun _ => none, none⟩ : Sensor)
      = ⟨"x", some (75/2), none⟩
    rw [hparse]
    rfl
  · intro l b s hs
    have hsb : sensorInBounds b s := by
      have := (List.mem_filter.mp hs).2
      simpa using this
    rcases hla : s.latitude with _ | la
    · exact absurd hsb (not_sensorInBounds_of_missing b s (Or.inl hla))
    rcases hlo : s.longitude with _ | lo
    · exact absurd hsb (not_sensorInBounds_of_missing b s (Or.inr hlo))
    exact ⟨rfl, rfl⟩

/-- Witness for C6: an unparseable string coerces to null, and a filtered
record has both coordinates. -/
theorem coordinate_coercion_amended_witness :
    toNum (.vstr "x12") = none ∧
    ((⟨"y", some 1, some 2⟩ : Sensor).latitude.isSome ∧
      (⟨"y", some 1, some 2⟩ : Sensor).longitude.isSome) :=
  ⟨coordinate_coercion_amended.2.2.2.1 "x12" rfl,
    coordinate_coercion_amended.2.2.2.2.2.2 [⟨"y", some 1, some 2⟩] ⟨0, 0, 10, 10⟩
      ⟨"y", some 1, some 2⟩
      (by norm_num [filterSensorsByBounds, sensorInBounds, coordPairInBounds,
        boundsCrossDateline, List.filter])⟩

/-- C4 counterexample.  In the exact scenario of the claim — location search,
no geocoder bbox, no category filter, 0 sensors at the 8 km tier, 0 at 25 km,
3 at 80 km, all three within the ±1 degree window — the pipeline publishes
the 3 records but locationFetchUsedFallback is TRUE: entering the 25 km tier
sets the fallback flag even though no category relaxation happened, refuting
"locationFetchUsedFallback is false". -/
theorem location_tier_fallback_flag_counterexample :
    (tierOracle ⟨none, none, 1, 500, .centerRadius 37 (-122) 8⟩).sensors = [] ∧
    (tierOracle ⟨none, none, 1, 500, .centerRadius 37 (-122) 25⟩).sensors = [] ∧
    (tierOracle ⟨none, none, 1, 500, .centerRadius 37 (-122) 80⟩).sensors
      = tier3Sensors ∧
    tier3Sensors.length = 3 ∧
    locationFetch tierOracle [none] none none 37 (-122) = (tier3Sensors, true) := by
  refine ⟨by norm_num [tierOracle], by norm_num [tierOracle],
    by norm_num [tierOracle], by norm_num [tier3Sensors], ?_⟩
  norm_num [locationFetch, fetchWithOpts, pagedLoop, normalizeGeo, tierOracle,
    tier3Sensors, appendIfNew, filterSensorsByBounds, sensorInBounds,
    coordPairInBounds, boundsCrossDateline, sortSensorsByCenter, hasCoords,
    nearerCenter, distSq, List.insertionSort, List.orderedInsert, List.filter,
    LOCATION_RADIUS_INITIAL_KM, LOCATION_RADIUS_TIER2_KM,
    LOCATION_RADIUS_TIER3_KM, RADIUS_MAX_PAGES]

/-- C4 amended.  With no geocoder bbox, when the 8 km tier and the 25 km tier
of a location search return no sensors and the 80 km tier returns some, the
pipeline publishes exactly the tier-3 records that lie within the ±1 degree
window around the point (distance sorted) — so when all tier-3 records lie
within the window, all of them are published — every published record lies
within that window, and locationFetchUsedFallback is true, because entering
the 25 km tier already sets the flag (radius escalation alone counts as
fallback in the code, with no category relaxation involved). -/
theorem location_tier_escalation (reg : Registry) (types : List (Option String))
    (provider : Option String) (lat lon : ℚ)
    (h8 : fetchWithOpts reg types provider
      (.centerRadius lat lon LOCATION_RADIUS_INITIAL_KM) = [])
    (h25 : fetchWithOpts reg types provider
      (.centerRadius lat lon LOCATION_RADIUS_TIER2_KM) = [])
    (h80 : fetchWithOpts reg types provider
      (.centerRadius lat lon LOCATION_RADIUS_TIER3_KM) ≠ []) :
    locationFetch reg types provider none lat lon
      = (sortSensorsByCenter
          (filterSensorsByBounds
            (fetchWithOpts reg types provider
              (.centerRadius lat lon LOCATION_RADIUS_TIER3_KM))
            ⟨lon - 1, lat - 1, lon + 1, lat + 1⟩)
          (lat, lon),
        true) ∧
    ∀ s ∈ (locationFetch reg types provider none lat lon).1,
      ∃ la lo : ℚ, s.latitude = some la ∧ s.longitude = some lo ∧
        lat - 1 ≤ la ∧ la ≤ lat + 1 ∧ lon - 1 ≤ lo ∧ lo ≤ lon + 1 := by
  have hlen80 : ¬ ((fetchWithOpts reg types provider
      (.centerRadius lat lon LOCATION_RADIUS_TIER3_KM)).length = 0) := by
    simpa [List.length_eq_zero] using h80
  have hmain : locationFetch reg types provider none lat lon
      = (sortSensorsByCenter
          (filterSensorsByBounds
            (fetchWithOpts reg types provider
              (.centerRadius lat lon LOCATION_RADIUS_TIER3_KM))
            ⟨lon - 1, lat - 1, lon + 1, lat + 1⟩)
          (lat, lon),
        true) := by
    simp [locationFetch, h8, h25, hlen80]
  refine ⟨hmain, ?_⟩
  intro s hs
  rw [hmain] at hs
  have hs2 : s ∈ filterSensorsByBounds
      (fetchWithOpts reg types provider
        (.centerRadius lat lon LOCATION_RADIUS_TIER3_KM))
      ⟨lon - 1, lat - 1, lon + 1, lat + 1⟩ :=
    (sortSensorsByCenter_perm _ _).mem_iff.mp hs
  have hsb : sensorInBounds ⟨lon - 1, lat - 1, lon + 1, lat + 1⟩ s := by
    have := (List.mem_filter.mp hs2).2
    simpa using this
  have hnc : ¬ boundsCrossDateline (⟨lon - 1, lat - 1, lon + 1, lat + 1⟩ : Bounds) :=
    not_crossDateline_of _ (by simp only; linarith) (by simp only; linarith)
  rcases hla : s.latitude with _ | la
  · exact absurd hsb (not_sensorInBounds_of_missing _ s (Or.inl hla))
  rcases hlo : s.longitude with _ | lo
  · exact absurd hsb (not_sensorInBounds_of_missing _ s (Or.inr hlo))
  rcases s with ⟨i, ola, olo⟩
  simp only at hla hlo
  subst hla
  subst hlo
  rcases (sensorInBounds_some_iff _ i la lo).mp hsb with ⟨hlat, ⟨hcc, -⟩ | ⟨-, hl1, hl2⟩⟩
  · exact absurd hcc hnc
  · exact ⟨la, lo, rfl, rfl, by simpa using hlat.1, by simpa using hlat.2,
      by simpa using hl1, by simpa using hl2⟩

/-- Witness for C4 at the concrete tiered oracle. -/
theorem location_tier_escalation_witness :
    locationFetch tierOracle [none] none none 37 (-122)
      = (sortSensorsByCenter
          (filterSensorsByBounds
            (fetchWithOpts tierOracle [none] none
              (.centerRadius 37 (-122) LOCATION_RADIUS_TIER3_KM))
            ⟨-122 - 1, 37 - 1, -122 + 1, 37 + 1⟩)
          (37, -122),
        true) :=
  (location_tier_escalation tierOracle [none] none 37 (-122)
    (by decide) (by decide) (by decide)).1

end SensorsExplorer
